import Mathlib

/-!
Verification development for the stock-analyzer repository
(`src/stock_analyzer.py`).

The numeric pipeline is embedded shallowly: price and return sequences are
`List ℚ`, the numpy/pandas reductions (`mean`, `std`, `max`, `min`,
`pct_change`) are Lean functions over those lists, and the one place where
the IEEE result leaves the rationals (the square root inside `std`) is
carried in `ℝ` via `Real.sqrt`.  Non-finite IEEE results (inf / NaN
produced by division by zero or by reductions over empty / too-short
series) are made explicit through the `FVal` type, and Python exceptions
raised by the libraries are modelled through `Except StatError`.

Two points of numpy/pandas semantics matter and are modelled faithfully:
  * `arr.std()` is the population standard deviation (ddof = 0) when `arr`
    is a numpy array (the `display_closing_summary` path, which calls
    `.to_numpy()` first), but the sample standard deviation (ddof = 1)
    when `arr` is a pandas Series (the `display_daily_yield_stats` and
    `calculate_sharpe_metric` paths, which pass the `pct_change` Series
    straight through).  The `ArrayLike` type records which of the two
    receivers `get_stats` is applied to.
  * reductions over an empty numpy array raise `ValueError`
    (modelled as `StatError.libraryValueError`), while the same reductions
    over an empty pandas Series return NaN without raising.

The source file contains no `raise` statement and defines none of the
error classes named by the specification (`EmptyInputError`,
`InsufficientDataError`, `DegenerateInputError`, `MisalignedSeriesError`);
those names appear in `StatError` only so that statements about them can
be written down and compared with what the code actually produces.
-/

namespace StockAnalyzer

/-- numpy/pandas `arr.mean()`: sum of the entries divided by their count. -/
def qmean (v : List ℚ) : ℚ := v.sum / (v.length : ℚ)

/-- Sum of squared deviations from the mean, the numerator shared by both
standard-deviation conventions. -/
def sumSqDev (v : List ℚ) : ℚ := (v.map (fun x => (x - qmean v) ^ 2)).sum

/-- Population variance (numpy `ndarray.std()` squares to this: ddof = 0). -/
def varPop (v : List ℚ) : ℚ := sumSqDev v / (v.length : ℚ)

/-- Sample variance (pandas `Series.std()` squares to this: ddof = 1). -/
def varSamp (v : List ℚ) : ℚ := sumSqDev v / ((v.length : ℚ) - 1)

/-- numpy `ndarray.std()`: square root of the population variance. -/
noncomputable def stdPop (v : List ℚ) : ℝ := Real.sqrt ((varPop v : ℚ) : ℝ)

/-- pandas `Series.std()`: square root of the sample variance. -/
noncomputable def stdSamp (v : List ℚ) : ℝ := Real.sqrt ((varSamp v : ℚ) : ℝ)

/-- `arr.max()` on a non-empty array: the largest entry.  The `[]` case is
never reached by the embedded code (numpy raises first, pandas returns NaN
before this is consulted). -/
def listMax : List ℚ → ℚ
  | [] => 0
  | x :: xs => xs.foldl max x

/-- `arr.min()` on a non-empty array: the smallest entry. -/
def listMin : List ℚ → ℚ
  | [] => 0
  | x :: xs => xs.foldl min x

/-- Python exceptions observable from the embedded fragment.  The first
four names are the specification error taxonomy; `libraryValueError`
stands for the generic `ValueError` (or kindred unnamed exception) that
the numpy / statsmodels layers actually raise.  The source itself raises
nothing and defines no exception class. -/
inductive StatError where
  | emptyInput
  | insufficientData
  | degenerateInput
  | misalignedSeries
  | libraryValueError
  deriving DecidableEq

/-- An IEEE double as observed by the program: either a finite value or a
non-finite one (inf or NaN), which numpy produces silently from division
by zero and from reductions over empty or length-one series. -/
inductive FVal where
  | fin : ℝ → FVal
  | nonFinite : FVal

/-- The tuple returned by `get_stats`: `(average, std_dev, maximum, minimum)`. -/
structure StatsTuple where
  average : FVal
  std_dev : FVal
  maximum : FVal
  minimum : FVal

/-- The two receiver types `get_stats` is applied to in the program: a
numpy array (from `.to_numpy()`) or a pandas Series (from `.pct_change()`). -/
inductive ArrayLike where
  | npArray : List ℚ → ArrayLike
  | pdSeries : List ℚ → ArrayLike

/-- `get_stats(arr)` from the source: `(arr.mean(), arr.std(), arr.max(), arr.min())`.
On a numpy array: empty input raises `ValueError` (the `arr.max()` call, a
zero-size reduction), otherwise the std is population.  On a pandas
Series: empty input yields a NaN tuple without raising, a length-one
Series has NaN std (ddof = 1 divides by zero), otherwise the std is the
sample one. -/
noncomputable def get_stats : ArrayLike → Except StatError StatsTuple
  | .npArray v =>
      if v = [] then .error .libraryValueError
      else .ok ⟨.fin ((qmean v : ℚ) : ℝ), .fin (stdPop v),
                .fin ((listMax v : ℚ) : ℝ), .fin ((listMin v : ℚ) : ℝ)⟩
  | .pdSeries v =>
      if v = [] then .ok ⟨.nonFinite, .nonFinite, .nonFinite, .nonFinite⟩
      else .ok ⟨.fin ((qmean v : ℚ) : ℝ),
                if v.length = 1 then .nonFinite else .fin (stdSamp v),
                .fin ((listMax v : ℚ) : ℝ), .fin ((listMin v : ℚ) : ℝ)⟩

/-- `data['Adj Close'].pct_change()[1:]`: the day-over-day relative change,
with the leading NaN sliced off.  Entry `i` is `prices[i+1]/prices[i] - 1`. -/
def daily_yields (prices : List ℚ) : List ℚ :=
  List.zipWith (fun prev next => next / prev - 1) prices prices.tail

/-- IEEE division as numpy performs it on scalars: dividing by zero (or by
or into a non-finite value) yields a non-finite result and a warning, never
an exception. -/
noncomputable def fdiv : FVal → FVal → FVal
  | .fin a, .fin b => if b = 0 then .nonFinite else .fin (a / b)
  | _, _ => .nonFinite

/-- `calculate_sharpe_metric` from the source: take the daily-yield Series,
run `get_stats` on it, and divide the average by the standard deviation.
No branch of the source checks the denominator. -/
noncomputable def calculate_sharpe_metric (prices : List ℚ) : Except StatError FVal :=
  match get_stats (.pdSeries (daily_yields prices)) with
  | .error e => .error e
  | .ok t => .ok (fdiv t.average t.std_dev)

/-- Population covariance of two equal-length series, the quantity behind
the closed-form simple-regression slope. -/
def covPop (x y : List ℚ) : ℚ :=
  (List.zipWith (fun a b => (a - qmean x) * (b - qmean y)) x y).sum / (x.length : ℚ)

/-- Modelled from the spec: `sm.OLS(Y, sm.add_constant(X)).fit().params`
is a call into the external statsmodels library, whose body is not part of
this repository.  It is modelled by the closed-form ordinary-least-squares
estimators the specification gives (`beta = Cov(X, Y)/Var(X)`,
`alpha = mean(Y) - beta * mean(X)`); mismatched lengths and a degenerate
(zero-variance) regressor make the library stack fail with a generic
unnamed exception, modelled as `libraryValueError`. -/
def ols_alpha_beta (Y X : List ℚ) : Except StatError (ℚ × ℚ) :=
  if Y.length ≠ X.length then .error .libraryValueError
  else if varPop X = 0 then .error .libraryValueError
  else .ok (qmean Y - covPop X Y / varPop X * qmean X, covPop X Y / varPop X)

/-- `calculate_alpha_beta` from the source: both the asset data and the
fetched benchmark data are turned into `pct_change()[1:]` Series and handed
to the OLS routine, asset as `Y` (endog), benchmark as `X` (exog). -/
def calculate_alpha_beta (data bench : List ℚ) : Except StatError (ℚ × ℚ) :=
  ols_alpha_beta (daily_yields data) (daily_yields bench)

/-- The menu structure of the source: a mapping from choice labels to an
entry holding the message to display and an optional sub-menu of the same
shape.  Modelled as an association list (Python dict keys are unique and
iteration order is insertion order). -/
inductive Menu where
  | mk : List (String × String × Option Menu) → Menu

/-- The entries of a menu level. -/
def Menu.entries : Menu → List (String × String × Option Menu)
  | .mk es => es

/-- Dictionary lookup `menu_itr[choice]` (with `choice in menu_itr` as the
guard): the message and optional sub-menu stored under a key, if present. -/
def Menu.find (m : Menu) (k : String) : Option (String × Option Menu) :=
  (m.entries.find? (fun e => e.1 == k)).map (fun e => e.2)

/-- `get_choice_path(menu)` from the source, with the stream of answers the
user types made explicit.  Each loop iteration consumes one input line: an
input that is not a key of the current level prints a complaint and loops
without touching `choice_path`; a valid key is appended to `choice_path`,
and the loop either descends into the entry's sub-menu or returns the
accumulated path.  Running out of input models `input()` raising `EOFError`
(the Python loop would never return), hence `none`. -/
def get_choice_path (menu : Menu) : List String → Option (String × List String)
  | [] => none
  | c :: rest =>
    match menu.find c with
    | none => get_choice_path menu rest
    | some (_, none) => some (c, rest)
    | some (_, some sub) =>
        (get_choice_path sub rest).map (fun pr => (c ++ pr.1, pr.2))

/-- Concatenation of a list of choice keys, the way `choice_path += choice`
builds the returned string. -/
def concatKeys : List String → String
  | [] => ""
  | k :: ks => k ++ concatKeys ks

/-- The decomposition of a returned choice path: every key is a valid entry
of the menu level reached by the preceding keys, and the final key's entry
has no sub-menu. -/
inductive IsChoicePath : Menu → List String → Prop where
  | leaf : ∀ (m : Menu) (k msg : String),
      m.find k = some (msg, none) → IsChoicePath m [k]
  | step : ∀ (m : Menu) (k msg : String) (sm : Menu) (ks : List String),
      m.find k = some (msg, some sm) → IsChoicePath sm ks → IsChoicePath m (k :: ks)

/-- The top-level menu built in `get_user_choice`. -/
def main_menu : Menu :=
  .mk [("a", "Display stock data",
         some (.mk [("a", "Display available stock symbols", none),
                    ("b", "Display statistics of a specific stock", none)])),
       ("b", "Exit", none)]

/-- The analysis menu built in `analyze_stock`: ten leaf options, no
sub-menus. -/
def analysis_menu : Menu :=
  .mk [("a", "Display statistics of the adjusted closing rate (Average / Standard Deviation / Maximum / Minimum)", none),
       ("b", "Display statistics of the daily yield of the adjusted closing rate (Average / Standard Deviation / Maximum / Minimum)", none),
       ("c", "Calculate the Sharpe metric", none),
       ("d", "Plot a graph of the stock exchange rates", none),
       ("e", "Plot a graph of the daily yields", none),
       ("f", "Plot a histogram of the stock exchange rates", none),
       ("g", "Plot a histogram of the daily yields", none),
       ("h", "End analysis", none),
       ("i", "Calculate alpha", none),
       ("j", "Calculate beta", none)]

/-- The keys of the `handlers` dictionary in `analyze_stock`. -/
def handler_keys : List String := ["a", "b", "c", "d", "e", "f", "g"]

/-- The module-level list `symbols` in `main`. -/
def symbols : List String := ["EBAY", "ecl", "Eix", "ew", "ea"]

/-- The observable actions of the menu-driven part of the program that the
claims talk about: printing a line, fetching price data for a symbol, and
invoking an analysis handler (choice key paired with the symbol). -/
inductive Effect where
  | eprint : String → Effect
  | efetch : String → Effect
  | ehandler : String → String → Effect
  deriving DecidableEq

/-- The rejection message printed by `main` for a symbol outside the fixed
list. -/
def rejection_msg (symbol : String) : String :=
  "The selected company \"" ++ symbol ++ "\" is not among the available stock symbols"

/-- `analyze_stock` from the source, as the trace of fetch / handler
effects it performs: first the analysis-menu interaction resolves to a
choice (consuming input; exhausted input aborts everything after it), then
the data for `symbol` is fetched unconditionally, then the chosen handler
runs -- where choices `i`/`j` go through `calculate_alpha_beta`, which
fetches the `SPY` benchmark as well, and choice `h` matches no handler. -/
def analyze_stock (symbol : String) (inputs : List String) : List Effect :=
  match get_choice_path analysis_menu inputs with
  | none => []
  | some (choice, _) =>
      .efetch symbol ::
      (if choice ∈ handler_keys then [.ehandler choice symbol]
       else if choice = "i" ∨ choice = "j" then
         [.efetch "SPY", .ehandler choice symbol]
       else [])

/-- The `ab` branch of the `main` loop: if the entered symbol is not in the
fixed list, print the rejection message and go back to the menu (the
`continue`); otherwise run `analyze_stock` on it. -/
def main_ab (symbol : String) (inputs : List String) : List Effect :=
  if symbol ∈ symbols then analyze_stock symbol inputs
  else [.eprint (rejection_msg symbol)]

/-- The population standard deviation written directly from the
specification's words: square root of the sum of squared deviations from
the mean divided by N (not N - 1).  Stated independently of the embedded
code so the two can be compared. -/
noncomputable def specPopulationStd (v : List ℚ) : ℝ :=
  Real.sqrt ((((v.map (fun x => (x - v.sum / (v.length : ℚ)) ^ 2)).sum
      / (v.length : ℚ) : ℚ) : ℝ))

/-- `get_stats` threaded through an explicit console state: the function
prints nothing, reads nothing, and leaves its receiver as it found it
(every numpy/pandas reduction it calls allocates its result afresh). -/
noncomputable def get_stats_run (a : ArrayLike) (stdout : List String) :
    List String × Except StatError StatsTuple × ArrayLike :=
  (stdout, get_stats a, a)

/-- The daily-yield computation threaded through an explicit console
state: `pct_change` builds a new Series and leaves `prices` untouched. -/
def daily_yields_run (prices : List ℚ) (stdout : List String) :
    List String × List ℚ × List ℚ :=
  (stdout, daily_yields prices, prices)

/-- `calculate_sharpe_metric` threaded through an explicit console state:
the computed metric is appended to stdout through the caller-supplied
rendering of the float (`str.format`), and the input Series survives
unchanged. -/
noncomputable def calculate_sharpe_metric_run
    (render : Except StatError FVal → String) (symbol : String)
    (prices : List ℚ) (stdout : List String) :
    List String × Except StatError FVal × List ℚ :=
  (stdout ++ [symbol ++ ": Sharpe metric: " ++ render (calculate_sharpe_metric prices)],
   calculate_sharpe_metric prices, prices)

/-- The regression threaded through an explicit console state. -/
def ols_alpha_beta_run (Y X : List ℚ) (stdout : List String) :
    List String × Except StatError (ℚ × ℚ) × List ℚ × List ℚ :=
  (stdout, ols_alpha_beta Y X, Y, X)

/-! ### Helper lemmas -/

theorem foldl_max_init (xs : List ℚ) : ∀ x : ℚ, x ≤ xs.foldl max x := by
  induction xs with
  | nil => intro x; simp
  | cons y ys ih =>
      intro x
      simpa [List.foldl_cons] using le_trans (le_max_left x y) (ih (max x y))

theorem foldl_max_mem (xs : List ℚ) : ∀ x a : ℚ, a ∈ xs → a ≤ xs.foldl max x := by
  induction xs with
  | nil => intro x a h; simp at h
  | cons y ys ih =>
      intro x a h
      rcases List.mem_cons.mp h with rfl | h
      · simpa [List.foldl_cons] using le_trans (le_max_right x a) (foldl_max_init ys (max x a))
      · simpa [List.foldl_cons] using ih (max x y) a h

theorem foldl_min_init (xs : List ℚ) : ∀ x : ℚ, xs.foldl min x ≤ x := by
  induction xs with
  | nil => intro x; simp
  | cons y ys ih =>
      intro x
      simpa [List.foldl_cons] using le_trans (ih (min x y)) (min_le_left x y)

theorem foldl_min_mem (xs : List ℚ) : ∀ x a : ℚ, a ∈ xs → xs.foldl min x ≤ a := by
  induction xs with
  | nil => intro x a h; simp at h
  | cons y ys ih =>
      intro x a h
      rcases List.mem_cons.mp h with rfl | h
      · simpa [List.foldl_cons] using le_trans (foldl_min_init ys (min x a)) (min_le_right x a)
      · simpa [List.foldl_cons] using ih (min x y) a h

theorem le_listMax (v : List ℚ) (a : ℚ) (ha : a ∈ v) : a ≤ listMax v := by
  match v with
  | [] => simp at ha
  | x :: xs =>
      rcases List.mem_cons.mp ha with rfl | h
      · exact foldl_max_init xs a
      · exact foldl_max_mem xs x a h

theorem listMin_le (v : List ℚ) (a : ℚ) (ha : a ∈ v) : listMin v ≤ a := by
  match v with
  | [] => simp at ha
  | x :: xs =>
      rcases List.mem_cons.mp ha with rfl | h
      · exact foldl_min_init xs a
      · exact foldl_min_mem xs x a h

theorem sumSqDev_nonneg (v : List ℚ) : 0 ≤ sumSqDev v := by
  apply List.sum_nonneg
  intro q hq
  rcases List.mem_map.mp hq with ⟨x, _, rfl⟩
  exact sq_nonneg _

theorem varPop_nonneg (v : List ℚ) : 0 ≤ varPop v :=
  div_nonneg (sumSqDev_nonneg v) (by positivity)

theorem sumSqDev_singleton (x : ℚ) : sumSqDev [x] = 0 := by
  simp [sumSqDev, qmean]

theorem varSamp_nonneg (v : List ℚ) : 0 ≤ varSamp v := by
  match v with
  | [] => simp [varSamp, sumSqDev, qmean]
  | [x] => simp [varSamp, sumSqDev_singleton]
  | x :: y :: t =>
      apply div_nonneg (sumSqDev_nonneg _)
      have h : (2 : ℚ) ≤ ((x :: y :: t).length : ℚ) := by
        have : 2 ≤ (x :: y :: t).length := by simp
        exact_mod_cast this
      linarith

theorem stdSamp_eq_zero_iff (v : List ℚ) : stdSamp v = 0 ↔ varSamp v = 0 := by
  unfold stdSamp
  rw [Real.sqrt_eq_zero']
  constructor
  · intro h
    have h2 : varSamp v ≤ 0 := by exact_mod_cast h
    exact le_antisymm h2 (varSamp_nonneg v)
  · intro h
    rw [h]
    simp

theorem daily_yields_length (p : List ℚ) : (daily_yields p).length = p.length - 1 := by
  simp [daily_yields]

theorem daily_yields_nil_of_short (p : List ℚ) (hp : p.length < 2) : daily_yields p = [] := by
  have h := daily_yields_length p
  have : (daily_yields p).length = 0 := by omega
  exact List.length_eq_zero.mp this

theorem ne_nil_of_length_two (l : List ℚ) (h : l.length = 2) : l ≠ [] := by
  intro h2
  rw [h2] at h
  simp at h

theorem sum_map_affine (a c : ℚ) (x : List ℚ) :
    (x.map fun r => a + c * r).sum = a * (x.length : ℚ) + c * x.sum := by
  induction x with
  | nil => simp
  | cons y ys ih =>
      simp [ih]
      ring

theorem length_ne_zero_cast (x : List ℚ) (hx : x ≠ []) : ((x.length : ℚ)) ≠ 0 := by
  have : x.length ≠ 0 := by
    intro h
    exact hx (List.length_eq_zero.mp h)
  exact_mod_cast this

theorem qmean_map_affine (a c : ℚ) (x : List ℚ) (hx : x ≠ []) :
    qmean (x.map fun r => a + c * r) = a + c * qmean x := by
  unfold qmean
  rw [List.length_map, sum_map_affine]
  have hn := length_ne_zero_cast x hx
  field_simp

theorem sum_map_mul_const (c : ℚ) (f : ℚ → ℚ) (x : List ℚ) :
    (x.map fun r => c * f r).sum = c * (x.map f).sum := by
  induction x with
  | nil => simp
  | cons y ys ih => simp [ih]; ring

theorem covPop_map_affine (a c : ℚ) (x : List ℚ) (hx : x ≠ []) :
    covPop x (x.map fun r => a + c * r) = c * varPop x := by
  unfold covPop varPop
  rw [qmean_map_affine a c x hx, List.zipWith_map_right, List.zipWith_same]
  have hfun : (fun u : ℚ => (u - qmean x) * (a + c * u - (a + c * qmean x)))
      = fun u : ℚ => c * (u - qmean x) ^ 2 := by
    funext u
    ring
  rw [hfun, sum_map_mul_const c (fun u => (u - qmean x) ^ 2) x]
  unfold sumSqDev
  rw [mul_div_assoc]

theorem get_choice_path_skips (menu : Menu) (c : String) (rest : List String)
    (h : menu.find c = none) :
    get_choice_path menu (c :: rest) = get_choice_path menu rest := by
  simp [get_choice_path, h]

theorem get_choice_path_sound :
    ∀ (inputs : List String) (menu : Menu) (path : String) (rest : List String),
      get_choice_path menu inputs = some (path, rest) →
      ∃ ks, ks ≠ [] ∧ path = concatKeys ks ∧ IsChoicePath menu ks := by
  intro inputs
  induction inputs with
  | nil =>
      intro menu path rest h
      simp [get_choice_path] at h
  | cons c cs ih =>
      intro menu path rest h
      cases hf : menu.find c with
      | none =>
          rw [show get_choice_path menu (c :: cs) = get_choice_path menu cs from by
                simp [get_choice_path, hf]] at h
          exact ih menu path rest h
      | some e =>
          obtain ⟨msg, osub⟩ := e
          cases osub with
          | none =>
              have h2 : some (c, cs) = some (path, rest) := by
                rw [← h]
                simp [get_choice_path, hf]
              obtain ⟨rfl, rfl⟩ : c = path ∧ cs = rest := by
                have h3 := Option.some.inj h2
                exact ⟨congrArg Prod.fst h3, congrArg Prod.snd h3⟩
              refine ⟨[c], by simp, ?_, IsChoicePath.leaf menu c msg hf⟩
              simp [concatKeys]
          | some sm =>
              have h2 : (get_choice_path sm cs).map (fun pr => (c ++ pr.1, pr.2))
                  = some (path, rest) := by
                rw [← h]
                simp [get_choice_path, hf]
              cases hg : get_choice_path sm cs with
              | none => rw [hg] at h2; simp at h2
              | some pr =>
                  obtain ⟨p2, r2⟩ := pr
                  rw [hg] at h2
                  simp at h2
                  obtain ⟨hpath, hrest⟩ := h2
                  obtain ⟨ks, hks, hconcat, hpathv⟩ := ih sm p2 r2 hg
                  refine ⟨c :: ks, by simp, ?_, IsChoicePath.step menu c msg sm ks hf hpathv⟩
                  rw [← hpath, hconcat]
                  simp [concatKeys]

/-! ### Claim theorems -/

/-- Claim C1: for every price sequence of length at least 2, the
daily-returns computation (`pct_change()[1:]`) produces a sequence one
shorter than the input whose entry `i` equals
`prices[i+1]/prices[i] - 1`, in order, with the first undefined return
dropped rather than padded. -/
theorem daily_returns_spec (p : List ℚ) (hp : 2 ≤ p.length) :
    (daily_yields p).length = p.length - 1 ∧
    ∀ i : Fin ((daily_yields p).length),
      (daily_yields p).get i =
        p.get ⟨i.1 + 1, by have h := i.2; have h2 := daily_yields_length p; omega⟩ /
          p.get ⟨i.1, by have h := i.2; have h2 := daily_yields_length p; omega⟩ - 1 := by
  refine ⟨daily_yields_length p, ?_⟩
  intro i
  simp [daily_yields, List.get_eq_getElem, List.getElem_zipWith, List.getElem_tail]

/-- Witness for C1 at the concrete prices `[100, 110, 121]`. -/
theorem daily_returns_spec_witness :
    (daily_yields [(100 : ℚ), 110, 121]).length = [(100 : ℚ), 110, 121].length - 1 ∧
    (daily_yields [(100 : ℚ), 110, 121]).get ⟨0, by decide⟩ =
      [(100 : ℚ), 110, 121].get ⟨1, by decide⟩ / [(100 : ℚ), 110, 121].get ⟨0, by decide⟩ - 1 :=
  ⟨(daily_returns_spec [100, 110, 121] (by decide)).1,
   (daily_returns_spec [100, 110, 121] (by decide)).2 ⟨0, by decide⟩⟩

/-- Claim C3: on every non-empty sequence the `get_stats` maximum bounds
every element from above, the minimum bounds every element from below, and
the reported standard deviation (either convention) is non-negative. -/
theorem summarize_bounds (v : List ℚ) (hv : v ≠ []) :
    (∀ a ∈ v, a ≤ listMax v ∧ listMin v ≤ a) ∧
    0 ≤ stdPop v ∧ 0 ≤ stdSamp v ∧
    get_stats (.npArray v) =
      .ok ⟨.fin ((qmean v : ℚ) : ℝ), .fin (stdPop v),
           .fin ((listMax v : ℚ) : ℝ), .fin ((listMin v : ℚ) : ℝ)⟩ := by
  refine ⟨fun a ha => ⟨le_listMax v a ha, listMin_le v a ha⟩,
    Real.sqrt_nonneg _, Real.sqrt_nonneg _, ?_⟩
  simp [get_stats, hv]

/-- Witness for C3 at the concrete sequence `[3, 1, 2]`. -/
theorem summarize_bounds_witness :
    ((1 : ℚ) ≤ listMax [3, 1, 2] ∧ listMin [3, 1, 2] ≤ (1 : ℚ)) ∧ 0 ≤ stdPop [3, 1, 2] :=
  ⟨(summarize_bounds [3, 1, 2] (by decide)).1 1 (by decide),
   (summarize_bounds [3, 1, 2] (by decide)).2.1⟩

/-- Claim C8: each Statistics Engine operation, threaded through an
explicit console state, gives a result that is independent of that state
(hence two runs on the same input agree), leaves the prior output intact
(only appending), and returns its input sequences unchanged. -/
theorem engine_state_independent :
    ∀ (render : Except StatError FVal → String) (symbol : String) (a : ArrayLike)
      (p Y X : List ℚ) (out out2 : List String),
      ((get_stats_run a out).2.1 = (get_stats_run a out2).2.1 ∧
        (get_stats_run a out).1 = out ∧ (get_stats_run a out).2.2 = a) ∧
      ((daily_yields_run p out).2.1 = (daily_yields_run p out2).2.1 ∧
        (daily_yields_run p out).1 = out ∧ (daily_yields_run p out).2.2 = p) ∧
      ((calculate_sharpe_metric_run render symbol p out).2.1
          = (calculate_sharpe_metric_run render symbol p out2).2.1 ∧
        (calculate_sharpe_metric_run render symbol p out).1
          = out ++ (calculate_sharpe_metric_run render symbol p []).1 ∧
        (calculate_sharpe_metric_run render symbol p out).2.2 = p) ∧
      ((ols_alpha_beta_run Y X out).2.1 = (ols_alpha_beta_run Y X out2).2.1 ∧
        (ols_alpha_beta_run Y X out).1 = out ∧ (ols_alpha_beta_run Y X out).2.2 = (Y, X)) := by
  intro render symbol a p Y X out out2
  refine ⟨⟨rfl, rfl, rfl⟩, ⟨rfl, rfl, rfl⟩, ⟨rfl, ?_, rfl⟩, ⟨rfl, rfl, rfl⟩⟩
  simp [calculate_sharpe_metric_run]

/-- Claim C9: in the `ab` branch of the main loop, a symbol outside the
fixed list yields exactly the rejection print -- no fetch and no analysis
handler runs -- while a listed symbol proceeds into `analyze_stock`, whose
first effect after the menu interaction is fetching that symbol. -/
theorem main_symbol_gate :
    (∀ (symbol : String) (inputs : List String),
        symbol ∉ symbols →
        main_ab symbol inputs = [.eprint (rejection_msg symbol)] ∧
        (∀ s, Effect.efetch s ∉ main_ab symbol inputs) ∧
        (∀ c s, Effect.ehandler c s ∉ main_ab symbol inputs)) ∧
    (∀ (symbol : String) (inputs : List String) (choice : String) (rest : List String),
        symbol ∈ symbols →
        get_choice_path analysis_menu inputs = some (choice, rest) →
        (main_ab symbol inputs).head? = some (.efetch symbol)) := by
  constructor
  · intro symbol inputs h
    have hm : main_ab symbol inputs = [.eprint (rejection_msg symbol)] := by
      simp [main_ab, h]
    exact ⟨hm, fun s => by simp [hm], fun c s => by simp [hm]⟩
  · intro symbol inputs choice rest hs hc
    simp [main_ab, hs, analyze_stock, hc]

/-- Witness for C9: the unlisted symbol `XYZ` is rejected with the exact
message, and the listed symbol `EBAY` proceeds to its fetch. -/
theorem main_symbol_gate_witness :
    main_ab "XYZ" [] = [Effect.eprint (rejection_msg "XYZ")] ∧
    (main_ab "EBAY" ["c"]).head? = some (Effect.efetch "EBAY") :=
  ⟨(main_symbol_gate.1 "XYZ" [] (by decide)).1,
   main_symbol_gate.2 "EBAY" ["c"] "c" [] (by decide) (by decide)⟩

/-- Claim C10: whenever `get_choice_path` returns, the returned path is the
concatenation of a chain of keys each valid at the menu level reached by
its predecessors, ending at an entry with no sub-menu; and an input absent
from the current level is consumed by the re-prompt without being appended
(the recursion simply continues on the remaining input). -/
theorem choice_path_inv :
    (∀ (menu : Menu) (inputs : List String) (path : String) (rest : List String),
        get_choice_path menu inputs = some (path, rest) →
        ∃ ks, ks ≠ [] ∧ path = concatKeys ks ∧ IsChoicePath menu ks) ∧
    (∀ (menu : Menu) (c : String) (rest : List String),
        menu.find c = none →
        get_choice_path menu (c :: rest) = get_choice_path menu rest) :=
  ⟨fun menu inputs => get_choice_path_sound inputs menu, get_choice_path_skips⟩

/-- Witness for C10 on the real top-level menu: the invalid input `z` is
skipped and the session `z, a, b` returns the well-formed path `ab`. -/
theorem choice_path_inv_witness :
    (∃ ks, ks ≠ [] ∧ "ab" = concatKeys ks ∧ IsChoicePath main_menu ks) ∧
    get_choice_path main_menu ["z", "a", "b"] = get_choice_path main_menu ["a", "b"] :=
  ⟨choice_path_inv.1 main_menu ["z", "a", "b"] "ab" [] (by decide),
   choice_path_inv.2 main_menu "z" ["a", "b"] (by rfl)⟩

/-- Counterexample for C2: on prices `[100, 110, 121]` the Sharpe
computation returns a silently non-finite float instead of failing with
`DegenerateInputError`; and on prices `[1, 1, 3]` (returns `[0, 2]`) the
returned value is not `mean / populationStd`, because the code divides by
the pandas sample standard deviation. -/
theorem sharpe_cex :
    calculate_sharpe_metric [100, 110, 121] = .ok .nonFinite ∧
    calculate_sharpe_metric [100, 110, 121] ≠ .error .degenerateInput ∧
    calculate_sharpe_metric [1, 1, 3] ≠
      .ok (.fin (((qmean (daily_yields [1, 1, 3]) : ℚ) : ℝ) / stdPop (daily_yields [1, 1, 3]))) := by
  have hlen0 : (daily_yields [100, 110, 121]).length = 2 := by norm_num [daily_yields]
  have hne : daily_yields [100, 110, 121] ≠ [] := ne_nil_of_length_two _ hlen0
  have hlen : (daily_yields [100, 110, 121]).length ≠ 1 := by omega
  have hstd : stdSamp (daily_yields [100, 110, 121]) = 0 := by
    rw [stdSamp_eq_zero_iff]
    norm_num [daily_yields, varSamp, sumSqDev, qmean]
  have h1 : calculate_sharpe_metric [100, 110, 121] = .ok .nonFinite := by
    unfold calculate_sharpe_metric
    simp [get_stats, hne, hlen, fdiv, hstd]
  refine ⟨h1, by rw [h1]; simp, ?_⟩
  have hlen02 : (daily_yields [1, 1, 3]).length = 2 := by norm_num [daily_yields]
  have hne2 : daily_yields [1, 1, 3] ≠ [] := ne_nil_of_length_two _ hlen02
  have hlen2 : (daily_yields [1, 1, 3]).length ≠ 1 := by omega
  have hvs2 : varSamp (daily_yields [1, 1, 3]) = 2 := by
    norm_num [daily_yields, varSamp, sumSqDev, qmean]
  have hqm2 : qmean (daily_yields [1, 1, 3]) = 1 := by norm_num [daily_yields, qmean]
  have hvp2 : varPop (daily_yields [1, 1, 3]) = 1 := by
    norm_num [daily_yields, varPop, sumSqDev, qmean]
  have hs2 : stdSamp (daily_yields [1, 1, 3]) = Real.sqrt 2 := by
    unfold stdSamp
    rw [hvs2]
    norm_num
  have hp2 : stdPop (daily_yields [1, 1, 3]) = 1 := by
    unfold stdPop
    rw [hvp2]
    simp
  have hsqrt2 : Real.sqrt 2 ≠ 1 := by
    intro h
    have h2 := Real.sq_sqrt (by norm_num : (0 : ℝ) ≤ 2)
    rw [h] at h2
    norm_num at h2
  have hsqrt2pos : Real.sqrt 2 ≠ 0 := by
    rw [Real.sqrt_ne_zero']
    norm_num
  unfold calculate_sharpe_metric
  simp [get_stats, hne2, hlen2, fdiv, hs2, hsqrt2pos, hqm2, hp2]

/-- Claim C2 as amended: the Sharpe computation never raises; when the
sample standard deviation of the returns is non-zero it returns
`mean / sampleStd`, and when that standard deviation is zero (as for
prices `[100, 110, 121]`) it silently returns a non-finite IEEE value. -/
theorem sharpe_behavior (p : List ℚ) :
    (stdSamp (daily_yields p) = 0 → calculate_sharpe_metric p = .ok .nonFinite) ∧
    (stdSamp (daily_yields p) ≠ 0 →
      calculate_sharpe_metric p =
        .ok (.fin (((qmean (daily_yields p) : ℚ) : ℝ) / stdSamp (daily_yields p)))) := by
  unfold calculate_sharpe_metric
  rcases hdy : daily_yields p with - | ⟨x, - | ⟨y, t⟩⟩
  · have hz : stdSamp ([] : List ℚ) = 0 := by
      rw [stdSamp_eq_zero_iff]
      norm_num [varSamp, sumSqDev, qmean]
    constructor
    · intro _
      simp [get_stats, fdiv]
    · intro h
      exact absurd hz h
  · have hz : stdSamp [x] = 0 := by
      rw [stdSamp_eq_zero_iff]
      unfold varSamp
      rw [sumSqDev_singleton]
      simp
    constructor
    · intro _
      simp [get_stats, fdiv]
    · intro h
      exact absurd hz h
  · have hne : x :: y :: t ≠ [] := by simp
    have hlen : (x :: y :: t).length ≠ 1 := by simp
    constructor
    · intro h
      simp [get_stats, hne, hlen, fdiv, h]
    · intro h
      simp [get_stats, hne, hlen, fdiv, h]

/-- Witness for the amended C2 at prices `[1, 1, 3]`, whose returns have a
non-zero sample standard deviation. -/
theorem sharpe_behavior_witness :
    calculate_sharpe_metric [1, 1, 3] =
      .ok (.fin (((qmean (daily_yields [1, 1, 3]) : ℚ) : ℝ) / stdSamp (daily_yields [1, 1, 3]))) :=
  (sharpe_behavior [1, 1, 3]).2 (by
    intro h
    rw [stdSamp_eq_zero_iff] at h
    norm_num [daily_yields, varSamp, sumSqDev, qmean] at h)

/-- Counterexample for C4: the daily-returns expression on the length-one
sequence `[5.0]` returns the empty sequence instead of failing with
`InsufficientDataError`, and `get_stats` on empty input either raises the
library's generic `ValueError` (numpy path) or returns NaN statistics
without failing (pandas path) -- in neither case `EmptyInputError`. -/
theorem error_kinds_cex :
    daily_yields [5] = ([] : List ℚ) ∧
    get_stats (.npArray []) = .error .libraryValueError ∧
    get_stats (.npArray []) ≠ .error .emptyInput ∧
    get_stats (.pdSeries []) = .ok ⟨.nonFinite, .nonFinite, .nonFinite, .nonFinite⟩ := by
  refine ⟨rfl, by simp [get_stats], ?_, by simp [get_stats]⟩
  simp [get_stats]

/-- Claim C4 as amended: a price sequence shorter than 2 makes the
daily-returns expression yield the empty sequence (no error), and the
summary statistics on empty input fail only with the library's unnamed
`ValueError` on the numpy path while returning NaNs on the pandas path;
no `EmptyInputError` / `InsufficientDataError` exists to distinguish. -/
theorem error_kinds_behavior (p : List ℚ) (hp : p.length < 2) :
    daily_yields p = [] ∧
    get_stats (.npArray []) = .error .libraryValueError ∧
    get_stats (.pdSeries []) = .ok ⟨.nonFinite, .nonFinite, .nonFinite, .nonFinite⟩ :=
  ⟨daily_yields_nil_of_short p hp, by simp [get_stats], by simp [get_stats]⟩

/-- Witness for the amended C4 at the single-element sequence `[5.0]`. -/
theorem error_kinds_behavior_witness :
    daily_yields [5] = ([] : List ℚ) ∧
    get_stats (.npArray []) = .error .libraryValueError ∧
    get_stats (.pdSeries []) = .ok ⟨.nonFinite, .nonFinite, .nonFinite, .nonFinite⟩ :=
  error_kinds_behavior [5] (by decide)

/-- Counterexample for C5: on the pandas-Series path (the one taken for
daily-yield statistics and the Sharpe ratio) the reported standard
deviation of `[0, 2]` is the sample one, `sqrt 2`, not the population
value `sqrt(SSD/N) = 1` the claim prescribes. -/
theorem population_std_cex :
    get_stats (.pdSeries [0, 2]) =
      .ok ⟨.fin ((1 : ℝ)), .fin (stdSamp [0, 2]), .fin ((2 : ℝ)), .fin ((0 : ℝ))⟩ ∧
    stdSamp [0, 2] ≠ specPopulationStd [0, 2] := by
  constructor
  · have hq : qmean [(0 : ℚ), 2] = 1 := by norm_num [qmean]
    have hmax : listMax [(0 : ℚ), 2] = 2 := by norm_num [listMax]
    have hmin : listMin [(0 : ℚ), 2] = 0 := by norm_num [listMin]
    simp [get_stats, hq, hmax, hmin]
  · have h1 : stdSamp [(0 : ℚ), 2] = Real.sqrt 2 := by
      have hvs : varSamp [(0 : ℚ), 2] = 2 := by norm_num [varSamp, sumSqDev, qmean]
      unfold stdSamp
      rw [hvs]
      norm_num
    have h2 : specPopulationStd [(0 : ℚ), 2] = 1 := by
      unfold specPopulationStd
      norm_num
    rw [h1, h2]
    intro h
    have h3 := Real.sq_sqrt (by norm_num : (0 : ℝ) ≤ 2)
    rw [h] at h3
    norm_num at h3

/-- Claim C5 as amended: `get_stats` reports the population standard
deviation `sqrt(SSD/N)` exactly on the numpy-array path (the adjusted-close
statistics), while on the pandas-Series path (daily yields, Sharpe) it
reports the sample standard deviation `sqrt(SSD/(N-1))`. -/
theorem std_two_conventions (v : List ℚ) (hv : v ≠ []) :
    stdPop v = specPopulationStd v ∧
    get_stats (.npArray v) =
      .ok ⟨.fin ((qmean v : ℚ) : ℝ), .fin (stdPop v),
           .fin ((listMax v : ℚ) : ℝ), .fin ((listMin v : ℚ) : ℝ)⟩ ∧
    (2 ≤ v.length →
      get_stats (.pdSeries v) =
        .ok ⟨.fin ((qmean v : ℚ) : ℝ), .fin (stdSamp v),
             .fin ((listMax v : ℚ) : ℝ), .fin ((listMin v : ℚ) : ℝ)⟩ ∧
      stdSamp v = Real.sqrt ((sumSqDev v / ((v.length : ℚ) - 1) : ℚ) : ℝ)) := by
  refine ⟨rfl, by simp [get_stats, hv], fun h2 => ⟨?_, rfl⟩⟩
  have h1 : v.length ≠ 1 := by omega
  simp [get_stats, hv, h1]

/-- Witness for the amended C5 at the sequence `[3, 1, 2]`. -/
theorem std_two_conventions_witness :
    stdPop [3, 1, 2] = specPopulationStd [3, 1, 2] ∧
    stdSamp [3, 1, 2] =
      Real.sqrt ((sumSqDev [3, 1, 2] / ((([3, 1, 2] : List ℚ).length : ℚ) - 1) : ℚ) : ℝ) :=
  ⟨(std_two_conventions [3, 1, 2] (by decide)).1,
   ((std_two_conventions [3, 1, 2] (by decide)).2.2 (by decide)).2⟩

/-- Claim C6: on a noiseless affine input `asset = 2 + 1.5 * benchmark`
with non-degenerate benchmark, the ordinary-least-squares routine recovers
`alpha = 2` and `beta = 3/2` -- here exactly, which is stronger than the
floating-point tolerance the claim allows. -/
theorem ols_recovers_line (x : List ℚ) (hv : varPop x ≠ 0) :
    ols_alpha_beta (x.map fun r => 2 + 3/2 * r) x = .ok (2, 3/2) := by
  have hx : x ≠ [] := by
    intro h
    apply hv
    rw [h]
    norm_num [varPop, sumSqDev, qmean]
  have hlen : (x.map fun r => 2 + 3/2 * r).length = x.length := List.length_map _ _
  have hcov := covPop_map_affine 2 (3/2) x hx
  have hqm := qmean_map_affine 2 (3/2) x hx
  unfold ols_alpha_beta
  rw [hlen, hcov, hqm, mul_div_assoc, div_self hv, mul_one]
  simp [hv]

/-- Witness for C6 at the benchmark returns `[0, 1]`. -/
theorem ols_recovers_line_witness :
    ols_alpha_beta ([(0 : ℚ), 1].map fun r => 2 + 3/2 * r) [0, 1] = .ok (2, 3/2) :=
  ols_recovers_line [0, 1] (by norm_num [varPop, sumSqDev, qmean])

/-- Counterexample for C7: with mismatched return-series lengths the
regression fails with the library's generic unnamed error, not
`MisalignedSeriesError`; with a zero-variance benchmark it likewise fails
in the library stack, not with `DegenerateInputError` -- neither class
exists in the program. -/
theorem regression_errors_cex :
    calculate_alpha_beta [1, 2, 4] [1, 2] = .error .libraryValueError ∧
    calculate_alpha_beta [1, 2, 4] [1, 2] ≠ .error .misalignedSeries ∧
    ols_alpha_beta [0, 0] [0, 0] = .error .libraryValueError ∧
    ols_alpha_beta [0, 0] [0, 0] ≠ .error .degenerateInput := by
  have h1 : calculate_alpha_beta [1, 2, 4] [1, 2] = .error .libraryValueError := by
    have hy : (daily_yields [1, 2, 4]).length = 2 := by norm_num [daily_yields]
    have hx : (daily_yields [1, 2]).length = 1 := by norm_num [daily_yields]
    unfold calculate_alpha_beta
    simp [ols_alpha_beta, hy, hx]
  have h2 : ols_alpha_beta [(0 : ℚ), 0] [0, 0] = .error .libraryValueError := by
    have hvp : varPop [(0 : ℚ), 0] = 0 := by norm_num [varPop, sumSqDev, qmean]
    simp [ols_alpha_beta, hvp]
  exact ⟨h1, by rw [h1]; simp, h2, by rw [h2]; simp⟩

/-- Claim C7 as amended: the code performs no validation of its own -- the
two `pct_change()[1:]` series go straight into the external OLS call, which
fails with a generic unnamed library error on a length mismatch or a
zero-variance benchmark (the named error classes do not exist); when the
lengths agree and the benchmark variance is strictly positive the
regression succeeds with the closed-form estimators. -/
theorem regression_behavior (data bench : List ℚ) :
    0 ≤ varPop (daily_yields bench) ∧
    ((daily_yields data).length ≠ (daily_yields bench).length →
      calculate_alpha_beta data bench = .error .libraryValueError) ∧
    ((daily_yields data).length = (daily_yields bench).length →
      varPop (daily_yields bench) = 0 →
      calculate_alpha_beta data bench = .error .libraryValueError) ∧
    ((daily_yields data).length = (daily_yields bench).length →
      0 < varPop (daily_yields bench) →
      calculate_alpha_beta data bench =
        .ok (qmean (daily_yields data)
              - covPop (daily_yields bench) (daily_yields data) / varPop (daily_yields bench)
                * qmean (daily_yields bench),
             covPop (daily_yields bench) (daily_yields data) / varPop (daily_yields bench))) := by
  refine ⟨varPop_nonneg _, ?_, ?_, ?_⟩
  · intro h
    simp [calculate_alpha_beta, ols_alpha_beta, h]
  · intro h1 h2
    simp [calculate_alpha_beta, ols_alpha_beta, h1, h2]
  · intro h1 h2
    have h3 : varPop (daily_yields bench) ≠ 0 := ne_of_gt h2
    simp [calculate_alpha_beta, ols_alpha_beta, h1, h3]

/-- Witness for the amended C7: aligned series with a non-degenerate
benchmark succeed with the closed-form coefficients. -/
theorem regression_behavior_witness :
    calculate_alpha_beta [1, 2, 4] [1, 2, 6] =
      .ok (qmean (daily_yields [1, 2, 4])
            - covPop (daily_yields [1, 2, 6]) (daily_yields [1, 2, 4])
                / varPop (daily_yields [1, 2, 6]) * qmean (daily_yields [1, 2, 6]),
           covPop (daily_yields [1, 2, 6]) (daily_yields [1, 2, 4])
             / varPop (daily_yields [1, 2, 6])) :=
  (regression_behavior [1, 2, 4] [1, 2, 6]).2.2.2
    (by norm_num [daily_yields])
    (by norm_num [daily_yields, varPop, sumSqDev, qmean])

end StockAnalyzer
